import Mathlib

/-!
Shallow embedding of the offline-first synchronization engine of the
appz-groceries PWA (React/TypeScript client).

Embedded source files:
* frontend/src/lib/sync-queue.ts  — the SyncQueue class (enqueue, processQueue,
  handleRetry, the retry/backoff tables and the sync event stream);
* frontend/src/lib/offline-db.ts  — the IndexedDB-backed Local Mirror Store and
  the Pending Action Log (object stores keyed by id, index-ordered reads);
* frontend/src/hooks/useLists.ts / useItems — the optimistic
  snapshot/rollback logic of the TanStack Query mutations.

Modelling conventions:
* JS numbers used for money/quantities are modelled as `Rat`; timestamps,
  ids and HTTP status codes as `Nat`.
* A ULID is modelled as a `Nat`; the spec's stated contract for the id
  generator ("time-sortable, unique, monotonic") appears as `StrictMono`
  hypotheses where a claim needs it.
* An IndexedDB object store is a `List` of records; `put` upserts by the
  keyPath `id`, `delete` filters by key, and reading through an index
  returns the records sorted by (index key, primary key) — IndexedDB
  orders duplicate index keys by primary key.
* `fetch` outcomes are an oracle `PendingAction → ExecOutcome`; the
  `navigator.onLine` flag is an oracle `Nat → Bool` sampled once before the
  pass and once per loop iteration, matching the two reads in the source.
* Rejections of `await`ed operations are modelled with `Except` (mirror
  store) or an explicit pass-level error parameter (sync queue).
-/

namespace Groceries

/-- ActionType from offline-db.ts: the tagged mutation kinds. -/
inductive ActionType
  | listCreate
  | listUpdate
  | listDelete
  | itemCreate
  | itemUpdate
  | itemDelete
  | itemToggle
  | itemReorder
deriving DecidableEq, Repr

/-- PendingAction record from offline-db.ts. -/
structure PendingAction where
  id : Nat
  type : ActionType
  endpoint : String
  method : String
  payload : String
  createdAt : Nat
  retryCount : Nat
  lastError : Option String := none
deriving DecidableEq, Repr

/-- IndexedDB `put` on the pendingActions store (keyPath "id"): replace the
record with the same key if present, otherwise insert. -/
def addPendingAction (action : PendingAction) (store : List PendingAction) :
    List PendingAction :=
  if store.any (fun b => b.id == action.id) then
    store.map (fun b => if b.id == action.id then action else b)
  else
    store ++ [action]

/-- IndexedDB `delete` on the pendingActions store: remove the record with
the given key. -/
def removePendingAction (id : Nat) (store : List PendingAction) :
    List PendingAction :=
  store.filter (fun b => b.id != id)

/-- updatePendingAction from offline-db.ts, specialised to the one call site
in sync-queue.ts: look up the record, and if present `put` back the merged
record `{ ...existing, retryCount, lastError }`. Absent id is a no-op. -/
def updatePendingAction (id : Nat) (retryCount : Nat) (lastError : String)
    (store : List PendingAction) : List PendingAction :=
  match store.find? (fun b => b.id == id) with
  | none => store
  | some existing =>
      addPendingAction
        { existing with retryCount := retryCount, lastError := some lastError }
        store

/-- Index order of the "by-created" index: records sorted by `createdAt`,
with ties resolved by the primary key `id` (IndexedDB key order). -/
def actionOrder (a b : PendingAction) : Prop :=
  a.createdAt < b.createdAt ∨ (a.createdAt = b.createdAt ∧ a.id ≤ b.id)

instance : DecidableRel actionOrder := fun a b =>
  inferInstanceAs
    (Decidable (a.createdAt < b.createdAt ∨ (a.createdAt = b.createdAt ∧ a.id ≤ b.id)))

instance : IsTotal PendingAction actionOrder where
  total a b := by
    unfold actionOrder
    omega

instance : IsTrans PendingAction actionOrder where
  trans a b c hab hbc := by
    unfold actionOrder at hab hbc ⊢
    omega

/-- getPendingActions from offline-db.ts: `getAllFromIndex("pendingActions",
"by-created")`, i.e. all queued actions in index order. -/
def getPendingActions (store : List PendingAction) : List PendingAction :=
  List.insertionSort actionOrder store

/-- getPendingCount from offline-db.ts: `db.count("pendingActions")`. -/
def getPendingCount (store : List PendingAction) : Nat :=
  store.length

/-- MAX_RETRIES from sync-queue.ts. -/
def MAX_RETRIES : Nat := 5

/-- RETRY_DELAYS from sync-queue.ts (exponential backoff, milliseconds). -/
def RETRY_DELAYS : List Nat := [1000, 2000, 5000, 10000, 30000]

/-- Backoff delay chosen by handleRetry:
`RETRY_DELAYS[retryCount] || RETRY_DELAYS[RETRY_DELAYS.length - 1]`
(no table entry is zero, so the JS fallback fires exactly out of bounds). -/
def retryDelay (retryCount : Nat) : Nat :=
  (RETRY_DELAYS[retryCount]?).getD (RETRY_DELAYS.getD (RETRY_DELAYS.length - 1) 0)

/-- The typed sync event stream of sync-queue.ts. -/
inductive SyncEvent
  | syncStart
  | syncComplete (pendingCount : Nat)
  | syncError (error : String)
  | actionComplete (actionId : Nat)
  | actionError (actionId : Nat) (error : String)
deriving DecidableEq, Repr

/-- Outcome of one `executeAction` (one `fetch`): an HTTP response with a
status code, a TypeError whose message mentions "fetch" (raw network
failure), or any other thrown error. -/
inductive ExecOutcome
  | response (status : Nat)
  | fetchError
  | thrown (msg : String)
deriving DecidableEq, Repr

/-- Accumulated effects of a drain pass: the pendingActions store, the
events emitted so far, and the backoff delays of the `setTimeout`
reschedules issued so far. -/
structure LoopState where
  store : List PendingAction
  events : List SyncEvent
  delays : List Nat
deriving DecidableEq, Repr

/-- Result of handleRetry on one action: the new store, any emitted events
and any scheduled re-drain delays. -/
structure RetryResult where
  store : List PendingAction
  events : List SyncEvent
  delays : List Nat
deriving DecidableEq, Repr

/-- handleRetry from sync-queue.ts: at or above the retry ceiling, delete
the action and emit "Max retries exceeded"; otherwise store the bumped
retryCount and lastError and schedule another drain after the backoff
delay for the pre-increment retryCount. -/
def handleRetry (a : PendingAction) (error : String)
    (store : List PendingAction) : RetryResult :=
  if MAX_RETRIES ≤ a.retryCount then
    { store := removePendingAction a.id store,
      events := [SyncEvent.actionError a.id ("Max retries exceeded: " ++ error)],
      delays := [] }
  else
    { store := updatePendingAction a.id (a.retryCount + 1) error store,
      events := [],
      delays := [retryDelay a.retryCount] }

/-- The `for (const action of actions)` loop of processQueue. `online` is
the value `navigator.onLine` would read at the start of each iteration;
`outcome` is the result of the `fetch` for each action. Classification
follows the source: `response.ok` (2xx) deletes and emits action-complete;
409 deletes and emits the conflict action-error; other 4xx deletes and
emits a client-error action-error; any other status goes to handleRetry;
a fetch TypeError breaks out of the loop; any other thrown error goes to
handleRetry. -/
def drainLoop (online : Nat → Bool) (outcome : PendingAction → ExecOutcome) :
    Nat → List PendingAction → LoopState → LoopState
  | _, [], s => s
  | step, a :: rest, s =>
    if online step then
      match outcome a with
      | ExecOutcome.response status =>
        if 200 ≤ status ∧ status ≤ 299 then
          drainLoop online outcome (step + 1) rest
            { s with
                store := removePendingAction a.id s.store,
                events := s.events ++ [SyncEvent.actionComplete a.id] }
        else if status = 409 then
          drainLoop online outcome (step + 1) rest
            { s with
                store := removePendingAction a.id s.store,
                events := s.events ++
                  [SyncEvent.actionError a.id "Conflict - server version used"] }
        else if 400 ≤ status ∧ status < 500 then
          drainLoop online outcome (step + 1) rest
            { s with
                store := removePendingAction a.id s.store,
                events := s.events ++
                  [SyncEvent.actionError a.id ("Client error: " ++ toString status)] }
        else
          let r := handleRetry a ("Server error: " ++ toString status) s.store
          drainLoop online outcome (step + 1) rest
            { store := r.store,
              events := s.events ++ r.events,
              delays := s.delays ++ r.delays }
      | ExecOutcome.fetchError => s
      | ExecOutcome.thrown msg =>
          let r := handleRetry a msg s.store
          drainLoop online outcome (step + 1) rest
            { store := r.store,
              events := s.events ++ r.events,
              delays := s.delays ++ r.delays }
    else s

/-- The SyncQueue state visible to processQueue: the single-flight flag and
the durable pendingActions store. -/
structure SyncQueueState where
  isProcessing : Bool
  store : List PendingAction
deriving DecidableEq, Repr

/-- Result of one processQueue call. -/
structure SyncResult where
  state : SyncQueueState
  events : List SyncEvent
  delays : List Nat
deriving DecidableEq, Repr

/-- processQueue from sync-queue.ts. `onlineAtStart` is the
`navigator.onLine` read at the top of the call, `online` the reads inside
the loop. `loadError` models `getPendingActions()` rejecting, which the
surrounding try/catch turns into a `sync-error` event; the `finally`
clears the single-flight flag on every path that set it. -/
def processQueue (st : SyncQueueState) (onlineAtStart : Bool)
    (online : Nat → Bool) (outcome : PendingAction → ExecOutcome)
    (loadError : Option String) : SyncResult :=
  if st.isProcessing then
    { state := st, events := [], delays := [] }
  else if !onlineAtStart then
    { state := st, events := [], delays := [] }
  else
    match loadError with
    | some e =>
        { state := { isProcessing := false, store := st.store },
          events := [SyncEvent.syncStart, SyncEvent.syncError e],
          delays := [] }
    | none =>
        let actions := getPendingActions st.store
        let s := drainLoop online outcome 0 actions
          { store := st.store, events := [], delays := [] }
        { state := { isProcessing := false, store := s.store },
          events := [SyncEvent.syncStart] ++ s.events ++
            [SyncEvent.syncComplete (getPendingCount s.store)],
          delays := s.delays }

/-- One enqueue request: the arguments of `syncQueue.enqueue`. -/
structure EnqueueReq where
  type : ActionType
  endpoint : String
  method : String
  payload : String
deriving DecidableEq, Repr

/-- The PendingAction built by `enqueue` for the k-th request: a fresh id
from the ulid generator and `createdAt = Date.now()`, retryCount 0. -/
def enqueuedAction (ids clock : Nat → Nat) (k : Nat) (r : EnqueueReq) :
    PendingAction :=
  { id := ids k, type := r.type, endpoint := r.endpoint, method := r.method,
    payload := r.payload, createdAt := clock k, retryCount := 0 }

/-- A sequence of offline enqueues: each request is appended to the
pendingActions store via `addPendingAction` (offline, so no immediate
drain follows). -/
def enqueueSeq (ids clock : Nat → Nat) :
    Nat → List EnqueueReq → List PendingAction → List PendingAction
  | _, [], store => store
  | k, r :: rest, store =>
      enqueueSeq ids clock (k + 1) rest
        (addPendingAction (enqueuedAction ids clock k r) store)

/-- A concrete queued action used by the closed witness theorems. -/
def sampleAction : PendingAction :=
  { id := 1, type := ActionType.listCreate, endpoint := "/api/lists",
    method := "POST", payload := "a", createdAt := 10, retryCount := 0 }

/-- A second concrete queued action (different id and type) for witnesses. -/
def sampleAction2 : PendingAction :=
  { id := 2, type := ActionType.itemToggle, endpoint := "/api/lists/1/items/7/toggle",
    method := "PATCH", payload := "b", createdAt := 11, retryCount := 0 }

/-- C10: a processQueue call made while the connectivity signal reports
offline returns without emitting any event (not even sync-start), without
scheduling anything, and with the queue state — flag and pendingActions
store — exactly as it was: a completely silent no-op. -/
theorem processQueue_offline_silent_noop (st : SyncQueueState)
    (online : Nat → Bool) (outcome : PendingAction → ExecOutcome)
    (loadError : Option String) :
    processQueue st false online outcome loadError =
      { state := st, events := [], delays := [] } := by
  cases h : st.isProcessing <;> simp [processQueue, h]

/-- C2: when the single-flight flag is set, any further processQueue call
returns immediately as a no-op (state untouched, no events, no scheduled
drains); and whenever a call finds the flag clear, the flag is clear again
when the call ends — on the normal path and on the pass-level-error path
alike. -/
theorem processQueue_single_flight (st : SyncQueueState) (onlineAtStart : Bool)
    (online : Nat → Bool) (outcome : PendingAction → ExecOutcome)
    (loadError : Option String) :
    (st.isProcessing = true →
      processQueue st onlineAtStart online outcome loadError =
        { state := st, events := [], delays := [] })
    ∧ (st.isProcessing = false →
      (processQueue st onlineAtStart online outcome loadError).state.isProcessing
        = false) := by
  constructor
  · intro h
    simp [processQueue, h]
  · intro h
    cases onlineAtStart
    · simp [processQueue, h]
    · cases loadError <;> simp [processQueue, h]

/-- Closed witness for the single-flight theorem: a concrete in-progress
state is left untouched, and a concrete idle state ends with the flag
clear. -/
theorem processQueue_single_flight_witness :
    processQueue { isProcessing := true, store := [sampleAction] } true
        (fun _ => true) (fun _ => ExecOutcome.response 200) none =
      { state := { isProcessing := true, store := [sampleAction] },
        events := [], delays := [] }
    ∧ (processQueue { isProcessing := false, store := [sampleAction] } true
        (fun _ => true) (fun _ => ExecOutcome.response 200) none).state.isProcessing
      = false :=
  ⟨(processQueue_single_flight _ _ _ _ _).1 rfl,
   (processQueue_single_flight _ _ _ _ _).2 rfl⟩

/-- C3: a 409 response makes the drain remove exactly the offending action
— every other queued record survives unchanged (same record, so its
retryCount is untouched) and nothing else is removed — emit exactly one
action-error with the conflict reason for that action's id, schedule
nothing, attempt no merge, and continue the pass with the next action. -/
theorem drain_conflict_409_drops_single_action
    (online : Nat → Bool) (outcome : PendingAction → ExecOutcome)
    (step : Nat) (a : PendingAction) (rest : List PendingAction) (s : LoopState)
    (honline : online step = true)
    (houtcome : outcome a = ExecOutcome.response 409) :
    drainLoop online outcome step (a :: rest) s =
      drainLoop online outcome (step + 1) rest
        { s with
            store := removePendingAction a.id s.store,
            events := s.events ++
              [SyncEvent.actionError a.id "Conflict - server version used"] }
    ∧ (∀ b ∈ s.store, b.id ≠ a.id → b ∈ removePendingAction a.id s.store)
    ∧ (∀ b ∈ removePendingAction a.id s.store, b ∈ s.store ∧ b.id ≠ a.id) := by
  refine ⟨?_, ?_, ?_⟩
  · simp [drainLoop, honline, houtcome]
  · intro b hb hne
    simp [removePendingAction, List.mem_filter, bne_iff_ne]
    exact ⟨hb, hne⟩
  · intro b hb
    simp [removePendingAction, List.mem_filter, bne_iff_ne] at hb
    exact hb

/-- Closed witness for the 409 theorem: a two-action queue where the first
action conflicts. -/
theorem drain_conflict_409_witness :
    drainLoop (fun _ => true)
        (fun a => if a.id = 1 then ExecOutcome.response 409 else ExecOutcome.response 200)
        0 [sampleAction, sampleAction2]
        { store := [sampleAction, sampleAction2], events := [], delays := [] } =
      drainLoop (fun _ => true)
        (fun a => if a.id = 1 then ExecOutcome.response 409 else ExecOutcome.response 200)
        1 [sampleAction2]
        { store := removePendingAction sampleAction.id [sampleAction, sampleAction2],
          events := [SyncEvent.actionError sampleAction.id "Conflict - server version used"],
          delays := [] }
    ∧ (∀ b ∈ [sampleAction, sampleAction2], b.id ≠ sampleAction.id →
        b ∈ removePendingAction sampleAction.id [sampleAction, sampleAction2])
    ∧ (∀ b ∈ removePendingAction sampleAction.id [sampleAction, sampleAction2],
        b ∈ [sampleAction, sampleAction2] ∧ b.id ≠ sampleAction.id) :=
  drain_conflict_409_drops_single_action _ _ 0 sampleAction [sampleAction2]
    { store := [sampleAction, sampleAction2], events := [], delays := [] }
    rfl (by decide)

/-- Put never loses a record: a member of the result was in the store or is
the record just put. -/
lemma mem_of_mem_addPendingAction {c a : PendingAction} {store : List PendingAction}
    (h : c ∈ addPendingAction a store) : c ∈ store ∨ c = a := by
  unfold addPendingAction at h
  by_cases hany : store.any (fun b => b.id == a.id) = true
  · rw [if_pos hany] at h
    obtain ⟨b, hb, hfb⟩ := List.mem_map.mp h
    by_cases hid : b.id == a.id
    · right
      simpa [hid] using hfb.symm
    · left
      have hbc : b = c := by simpa [hid] using hfb
      exact hbc ▸ hb
  · rw [if_neg hany] at h
    rcases List.mem_append.mp h with h' | h'
    · exact Or.inl h'
    · exact Or.inr (List.mem_singleton.mp h')

/-- Putting a record whose key is already present keeps the record itself a
member of the store. -/
lemma mem_addPendingAction_self {a : PendingAction} {store : List PendingAction}
    (ha : ∃ b ∈ store, b.id = a.id) : a ∈ addPendingAction a store := by
  obtain ⟨b, hb, hid⟩ := ha
  have hany : store.any (fun c => c.id == a.id) = true := by
    rw [List.any_eq_true]
    exact ⟨b, hb, by simp [hid]⟩
  rw [addPendingAction, if_pos hany]
  exact List.mem_map.mpr ⟨b, hb, by simp [hid]⟩

/-- Putting a record leaves every record with a different key untouched. -/
lemma mem_addPendingAction_other {b a : PendingAction} {store : List PendingAction}
    (hb : b ∈ store) (hne : b.id ≠ a.id) : b ∈ addPendingAction a store := by
  unfold addPendingAction
  by_cases hany : store.any (fun c => c.id == a.id) = true
  · rw [if_pos hany]
    exact List.mem_map.mpr ⟨b, hb, by simp [hne]⟩
  · rw [if_neg hany]
    exact List.mem_append.mpr (Or.inl hb)

/-- C4: a 5xx response — or a thrown non-network error — on an action with
retryCount below the ceiling keeps the action in the log with retryCount
incremented by exactly 1 and lastError recorded, leaves every other queued
record untouched, emits no event for it, schedules another drain after
backoffTable[retryCount] = backoffTable[newRetryCount - 1] milliseconds
(table [1s, 2s, 5s, 10s, 30s], in range here, clamped to the last value
beyond the table length), and continues the pass with the next action. -/
theorem drain_server_error_backoff
    (online : Nat → Bool) (outcome : PendingAction → ExecOutcome)
    (step : Nat) (a : PendingAction) (rest : List PendingAction) (s : LoopState)
    (err : String)
    (honline : online step = true)
    (houtcome :
      (∃ status, outcome a = ExecOutcome.response status ∧
        500 ≤ status ∧ status ≤ 599 ∧ err = "Server error: " ++ toString status)
      ∨ outcome a = ExecOutcome.thrown err)
    (hretry : a.retryCount < MAX_RETRIES)
    (hfind : s.store.find? (fun b => b.id == a.id) = some a) :
    drainLoop online outcome step (a :: rest) s =
      drainLoop online outcome (step + 1) rest
        { store := updatePendingAction a.id (a.retryCount + 1) err s.store,
          events := s.events,
          delays := s.delays ++ [retryDelay a.retryCount] }
    ∧ { a with retryCount := a.retryCount + 1, lastError := some err }
        ∈ updatePendingAction a.id (a.retryCount + 1) err s.store
    ∧ (∀ b ∈ s.store, b.id ≠ a.id →
        b ∈ updatePendingAction a.id (a.retryCount + 1) err s.store)
    ∧ RETRY_DELAYS[a.retryCount]? = some (retryDelay a.retryCount)
    ∧ (∀ r, RETRY_DELAYS.length ≤ r → retryDelay r = 30000) := by
  have h5 : ¬ MAX_RETRIES ≤ a.retryCount := Nat.not_le.mpr hretry
  refine ⟨?_, ?_, ?_, ?_, ?_⟩
  · rcases houtcome with ⟨status, hst, h500, _, herr⟩ | hth
    · have h1 : ¬ (200 ≤ status ∧ status ≤ 299) := by omega
      have h2 : ¬ status = 409 := by omega
      have h3 : ¬ (400 ≤ status ∧ status < 500) := by omega
      subst herr
      simp [drainLoop, honline, hst, h1, h2, h3, handleRetry, h5]
    · simp [drainLoop, honline, hth, handleRetry, h5]
  · have ha : a ∈ s.store := List.mem_of_find?_eq_some hfind
    rw [updatePendingAction, hfind]
    exact mem_addPendingAction_self ⟨a, ha, rfl⟩
  · intro b hb hne
    rw [updatePendingAction, hfind]
    exact mem_addPendingAction_other hb hne
  · have hcases : a.retryCount = 0 ∨ a.retryCount = 1 ∨ a.retryCount = 2 ∨
        a.retryCount = 3 ∨ a.retryCount = 4 := by
      have : a.retryCount < 5 := hretry
      omega
    rcases hcases with h | h | h | h | h <;> simp [h, retryDelay, RETRY_DELAYS]
  · intro r hr
    have hnone : RETRY_DELAYS[r]? = none := List.getElem?_eq_none hr
    unfold retryDelay
    rw [hnone]
    rfl

/-- Closed witness for the backoff theorem: a fresh action (retryCount 0)
hit by a 500 response. -/
theorem drain_server_error_backoff_witness :
    drainLoop (fun _ => true) (fun _ => ExecOutcome.response 500) 0
        [sampleAction] { store := [sampleAction], events := [], delays := [] } =
      drainLoop (fun _ => true) (fun _ => ExecOutcome.response 500) 1 []
        { store := updatePendingAction sampleAction.id (sampleAction.retryCount + 1)
            "Server error: 500" [sampleAction],
          events := [],
          delays := [] ++ [retryDelay sampleAction.retryCount] }
    ∧ { sampleAction with retryCount := sampleAction.retryCount + 1, lastError := some "Server error: 500" }
        ∈ updatePendingAction sampleAction.id (sampleAction.retryCount + 1)
            "Server error: 500" [sampleAction]
    ∧ (∀ b ∈ [sampleAction], b.id ≠ sampleAction.id →
        b ∈ updatePendingAction sampleAction.id (sampleAction.retryCount + 1)
              "Server error: 500" [sampleAction])
    ∧ RETRY_DELAYS[sampleAction.retryCount]? =
        some (retryDelay sampleAction.retryCount)
    ∧ (∀ r, RETRY_DELAYS.length ≤ r → retryDelay r = 30000) :=
  drain_server_error_backoff _ _ 0 sampleAction []
    { store := [sampleAction], events := [], delays := [] } "Server error: 500"
    rfl (Or.inl ⟨500, rfl, by decide, by decide, rfl⟩) (by decide) (by decide)

/-- C5: once an action's retryCount has reached the ceiling (5), the next
failure routed to the retry handler — a 5xx response or a thrown
non-network error alike — removes the action from the log and emits one
action-error whose message mentions max retries exceeded; afterwards no
record with that id remains queued, and the pass continues with the next
action. -/
theorem drain_retry_exhausted_drops_action
    (online : Nat → Bool) (outcome : PendingAction → ExecOutcome)
    (step : Nat) (a : PendingAction) (rest : List PendingAction) (s : LoopState)
    (err : String)
    (honline : online step = true)
    (houtcome :
      (∃ status, outcome a = ExecOutcome.response status ∧
        500 ≤ status ∧ status ≤ 599 ∧ err = "Server error: " ++ toString status)
      ∨ outcome a = ExecOutcome.thrown err)
    (hmax : MAX_RETRIES ≤ a.retryCount) :
    drainLoop online outcome step (a :: rest) s =
      drainLoop online outcome (step + 1) rest
        { s with
            store := removePendingAction a.id s.store,
            events := s.events ++
              [SyncEvent.actionError a.id ("Max retries exceeded: " ++ err)] }
    ∧ (∀ b ∈ removePendingAction a.id s.store, b.id ≠ a.id) := by
  constructor
  · rcases houtcome with ⟨status, hst, h500, _, herr⟩ | hth
    · have h1 : ¬ (200 ≤ status ∧ status ≤ 299) := by omega
      have h2 : ¬ status = 409 := by omega
      have h3 : ¬ (400 ≤ status ∧ status < 500) := by omega
      subst herr
      simp [drainLoop, honline, hst, h1, h2, h3, handleRetry, hmax]
    · simp [drainLoop, honline, hth, handleRetry, hmax]
  · intro b hb
    simp [removePendingAction, List.mem_filter, bne_iff_ne] at hb
    exact hb.2

/-- Closed witness for the retry-exhaustion theorem: an action already at
retryCount 5 hit by a thrown error. -/
theorem drain_retry_exhausted_witness :
    drainLoop (fun _ => true) (fun _ => ExecOutcome.thrown "boom") 3
        [{ sampleAction with retryCount := 5 }]
        { store := [{ sampleAction with retryCount := 5 }], events := [], delays := [] } =
      drainLoop (fun _ => true) (fun _ => ExecOutcome.thrown "boom") 4 []
        { store := removePendingAction sampleAction.id
            [{ sampleAction with retryCount := 5 }],
          events := [SyncEvent.actionError sampleAction.id
            ("Max retries exceeded: " ++ "boom")],
          delays := [] }
    ∧ (∀ b ∈ removePendingAction sampleAction.id
          [{ sampleAction with retryCount := 5 }], b.id ≠ sampleAction.id) :=
  drain_retry_exhausted_drops_action _ _ 3 { sampleAction with retryCount := 5 } []
    { store := [{ sampleAction with retryCount := 5 }], events := [], delays := [] }
    "boom" rfl (Or.inr rfl) (by decide)

/-- C6: a raw network failure (fetch TypeError, no response at all) stops
the pass before executing any later action: the loop returns its
accumulated state unchanged, so every action already resolved in the pass
stays resolved and every not-yet-executed action — the failing one
included — remains queued with retryCount and lastError untouched, and no
further per-action event or reschedule happens; the surrounding pass still
emits sync-start first and ends with sync-complete carrying the pending
count of the store it leaves behind. -/
theorem drain_transport_failure_aborts_pass
    (online : Nat → Bool) (outcome : PendingAction → ExecOutcome)
    (step : Nat) (a : PendingAction) (rest : List PendingAction) (s : LoopState)
    (st : SyncQueueState)
    (hflag : st.isProcessing = false)
    (honline : online step = true)
    (hfetch : outcome a = ExecOutcome.fetchError) :
    drainLoop online outcome step (a :: rest) s = s
    ∧ (processQueue st true online outcome none).events =
        SyncEvent.syncStart ::
          ((drainLoop online outcome 0 (getPendingActions st.store)
              { store := st.store, events := [], delays := [] }).events ++
           [SyncEvent.syncComplete
              (getPendingCount (processQueue st true online outcome none).state.store)]) := by
  constructor
  · simp [drainLoop, honline, hfetch]
  · simp [processQueue, hflag]

/-- Closed witness for the transport-abort theorem: a three-action queue
whose second call fails at the transport level. -/
theorem drain_transport_failure_witness :
    drainLoop (fun _ => true)
        (fun a => if a.id = 2 then ExecOutcome.fetchError else ExecOutcome.response 200)
        1 [sampleAction2]
        { store := [sampleAction2], events := [SyncEvent.actionComplete 1], delays := [] } =
      { store := [sampleAction2], events := [SyncEvent.actionComplete 1], delays := [] }
    ∧ (processQueue { isProcessing := false, store := [sampleAction, sampleAction2] } true
        (fun _ => true)
        (fun a => if a.id = 2 then ExecOutcome.fetchError else ExecOutcome.response 200)
        none).events =
      SyncEvent.syncStart ::
        ((drainLoop (fun _ => true)
            (fun a => if a.id = 2 then ExecOutcome.fetchError else ExecOutcome.response 200)
            0 (getPendingActions [sampleAction, sampleAction2])
            { store := [sampleAction, sampleAction2], events := [], delays := [] }).events ++
         [SyncEvent.syncComplete
            (getPendingCount
              (processQueue { isProcessing := false, store := [sampleAction, sampleAction2] }
                true (fun _ => true)
                (fun a => if a.id = 2 then ExecOutcome.fetchError else ExecOutcome.response 200)
                none).state.store)]) :=
  drain_transport_failure_aborts_pass _ _ 1 sampleAction2 []
    { store := [sampleAction2], events := [SyncEvent.actionComplete 1], delays := [] }
    { isProcessing := false, store := [sampleAction, sampleAction2] }
    rfl rfl (by decide)

/-- Every record of a finished enqueue sequence is one of the enqueued
actions or came from the starting store. -/
lemma enqueueSeq_mem (ids clock : Nat → Nat) :
    ∀ (reqs : List EnqueueReq) (k : Nat) (store : List PendingAction)
      (a : PendingAction), a ∈ enqueueSeq ids clock k reqs store →
      a ∈ store ∨ ∃ j r, a = enqueuedAction ids clock j r := by
  intro reqs
  induction reqs with
  | nil =>
    intro k store a h
    exact Or.inl h
  | cons r rest ih =>
    intro k store a h
    rcases ih (k + 1) (addPendingAction (enqueuedAction ids clock k r) store) a h with
      h' | h'
    · rcases mem_of_mem_addPendingAction h' with h'' | h''
      · exact Or.inl h''
      · exact Or.inr ⟨k, r, h''⟩
    · exact Or.inr h'

/-- With a strictly monotone id generator, an enqueue sequence keeps the
stored ids pairwise distinct (given a store of distinct ids all below the
next fresh id). -/
lemma enqueueSeq_ids_nodup (ids clock : Nat → Nat) (hids : StrictMono ids) :
    ∀ (reqs : List EnqueueReq) (k : Nat) (store : List PendingAction),
      (store.map (fun a => a.id)).Nodup →
      (∀ a ∈ store, a.id < ids k) →
      ((enqueueSeq ids clock k reqs store).map (fun a => a.id)).Nodup := by
  intro reqs
  induction reqs with
  | nil =>
    intro k store hnd _
    exact hnd
  | cons r rest ih =>
    intro k store hnd hbound
    have happend :
        addPendingAction (enqueuedAction ids clock k r) store =
          store ++ [enqueuedAction ids clock k r] := by
      rw [addPendingAction, if_neg]
      simp only [List.any_eq_true, not_exists, not_and]
      intro b hb
      have hlt := hbound b hb
      simp only [enqueuedAction, beq_iff_eq]
      omega
    apply ih (k + 1)
    · rw [happend, List.map_append]
      refine List.Nodup.append hnd (List.nodup_singleton _) ?_
      intro x hx1 hx2
      obtain ⟨b, hb, hbx⟩ := List.mem_map.mp hx1
      have hlt := hbound b hb
      have hxk : x = ids k := by simpa [enqueuedAction] using hx2
      omega
    · intro a ha
      rw [happend] at ha
      rcases List.mem_append.mp ha with h | h
      · exact lt_trans (hbound a h) (hids (Nat.lt_succ_self k))
      · have : a = enqueuedAction ids clock k r := List.mem_singleton.mp h
        rw [this]
        exact hids (Nat.lt_succ_self k)

/-- With a strictly monotone id generator and a monotone clock, ids of
enqueued actions order their createdAt timestamps. -/
lemma enqueueSeq_id_lt_createdAt_le (ids clock : Nat → Nat)
    (hids : StrictMono ids) (hclock : Monotone clock)
    (reqs : List EnqueueReq) :
    ∀ x ∈ enqueueSeq ids clock 0 reqs [], ∀ y ∈ enqueueSeq ids clock 0 reqs [],
      x.id < y.id → x.createdAt ≤ y.createdAt := by
  intro x hx y hy hlt
  rcases enqueueSeq_mem ids clock reqs 0 [] x hx with h | ⟨j₁, r₁, hx'⟩
  · simp at h
  rcases enqueueSeq_mem ids clock reqs 0 [] y hy with h | ⟨j₂, r₂, hy'⟩
  · simp at h
  subst hx'
  subst hy'
  have hj : j₁ < j₂ := hids.lt_iff_lt.mp hlt
  exact hclock (Nat.le_of_lt hj)

/-- C1: for every sequence of enqueued offline mutations — entity types
arbitrarily mixed — with the ULID generator's contract (ids strictly
monotone over successive calls) and a monotone Date.now clock, the list a
drain pass loads via getPendingActions (the "by-created" index, ties
broken by primary key) is sorted strictly ascending by PendingAction.id
and is a permutation of the queued store: FIFO by id, nothing lost. -/
theorem pending_actions_fifo_by_id (ids clock : Nat → Nat)
    (reqs : List EnqueueReq)
    (hids : StrictMono ids) (hclock : Monotone clock) :
    List.Sorted (fun a b : PendingAction => a.id < b.id)
      (getPendingActions (enqueueSeq ids clock 0 reqs []))
    ∧ List.Perm (getPendingActions (enqueueSeq ids clock 0 reqs []))
        (enqueueSeq ids clock 0 reqs []) := by
  have hperm : List.Perm (getPendingActions (enqueueSeq ids clock 0 reqs []))
      (enqueueSeq ids clock 0 reqs []) := List.perm_insertionSort _ _
  refine ⟨?_, hperm⟩
  have hsorted : List.Pairwise actionOrder
      (getPendingActions (enqueueSeq ids clock 0 reqs [])) :=
    List.sorted_insertionSort actionOrder _
  have hnd : ((enqueueSeq ids clock 0 reqs []).map (fun a => a.id)).Nodup :=
    enqueueSeq_ids_nodup ids clock hids reqs 0 [] (by simp) (by simp)
  have hnd' : ((getPendingActions (enqueueSeq ids clock 0 reqs [])).map
      (fun a => a.id)).Nodup := ((hperm.map (fun a => a.id)).nodup_iff).mpr hnd
  have hpairNe : (getPendingActions (enqueueSeq ids clock 0 reqs [])).Pairwise
      (fun a b => a.id ≠ b.id) := List.pairwise_map.mp hnd'
  have hcompat := enqueueSeq_id_lt_createdAt_le ids clock hids hclock reqs
  refine List.Pairwise.imp_of_mem ?_ (hsorted.and hpairNe)
  intro a b ha hb h
  obtain ⟨hord, hne⟩ := h
  have ha' := hperm.mem_iff.mp ha
  have hb' := hperm.mem_iff.mp hb
  by_cases hba : b.id < a.id
  · have hle := hcompat b hb' a ha' hba
    unfold actionOrder at hord
    omega
  · unfold actionOrder at hord
    omega

/-- Concrete mixed-type enqueue requests used by the FIFO witness. -/
def sampleReqs : List EnqueueReq :=
  [{ type := ActionType.listCreate, endpoint := "/api/lists", method := "POST", payload := "a" },
   { type := ActionType.itemCreate, endpoint := "/api/lists/1/items", method := "POST", payload := "b" },
   { type := ActionType.itemToggle, endpoint := "/api/lists/1/items/7/toggle", method := "PATCH", payload := "" }]

/-- Closed witness for the FIFO theorem: identity id generator and clock,
three enqueues of mixed entity types. -/
theorem pending_actions_fifo_by_id_witness :
    StrictMono (fun n : Nat => n) ∧ Monotone (fun n : Nat => n)
    ∧ List.Sorted (fun a b : PendingAction => a.id < b.id)
        (getPendingActions (enqueueSeq (fun n => n) (fun n => n) 0 sampleReqs []))
    ∧ List.Perm (getPendingActions (enqueueSeq (fun n => n) (fun n => n) 0 sampleReqs []))
        (enqueueSeq (fun n => n) (fun n => n) 0 sampleReqs []) :=
  ⟨fun _ _ h => h, fun _ _ h => h,
   (pending_actions_fifo_by_id (fun n => n) (fun n => n) sampleReqs
      (fun _ _ h => h) (fun _ _ h => h)).1,
   (pending_actions_fifo_by_id (fun n => n) (fun n => n) sampleReqs
      (fun _ _ h => h) (fun _ _ h => h)).2⟩

/-- ListWithCounts entity from types/index.ts; JS number money totals are
modelled as `Rat`, timestamps and versions as `Nat`. -/
structure ListWithCounts where
  id : Nat
  name : String
  version : Nat
  createdAt : Nat
  updatedAt : Nat
  totalItems : Nat
  checkedItems : Nat
  totalPrice : Rat
deriving DecidableEq, Repr

/-- Item entity from types/index.ts; nullable fields are `Option`. -/
structure Item where
  id : Nat
  listId : Nat
  name : String
  quantity : Rat
  unit : Option String
  categoryId : Nat
  checked : Bool
  price : Option Rat
  store : Option String
  sortOrder : Nat
  version : Nat
deriving DecidableEq, Repr

/-- The entity object stores of the groceries-offline IndexedDB database
(the stores the claims touch: lists and items, both keyPath "id"). -/
structure MirrorDB where
  lists : List ListWithCounts
  items : List Item
deriving DecidableEq, Repr

/-- Failure of `openDB`: IndexedDB missing or unusable in the current
browsing context, so the returned promise rejects. -/
inductive DBError
  | openFailed
deriving DecidableEq, Repr

/-- The platform environment of offline-db.ts: whether IndexedDB can be
opened, and the persisted database contents when it can. -/
structure Env where
  indexedDBAvailable : Bool
  db : MirrorDB
deriving DecidableEq, Repr

/-- getDB from offline-db.ts: `openDB(...)` resolves with the database, or
rejects when IndexedDB is unavailable; no catch anywhere in the module. -/
def getDB (env : Env) : Except DBError MirrorDB :=
  if env.indexedDBAvailable then Except.ok env.db else Except.error DBError.openFailed

/-- IndexedDB `put` on an object store with keyPath "id": replace the
record with the same key if present, otherwise insert. -/
def idbPut {α : Type} (key : α → Nat) (v : α) (store : List α) : List α :=
  if store.any (fun b => key b == key v) then
    store.map (fun b => if key b == key v then v else b)
  else
    store ++ [v]

/-- Put never loses a record (generic version for the entity stores). -/
lemma mem_of_mem_idbPut {α : Type} {key : α → Nat} {v c : α} {store : List α}
    (h : c ∈ idbPut key v store) : c ∈ store ∨ c = v := by
  unfold idbPut at h
  by_cases hany : store.any (fun b => key b == key v) = true
  · rw [if_pos hany] at h
    obtain ⟨b, hb, hfb⟩ := List.mem_map.mp h
    by_cases hid : key b == key v
    · right
      simpa [hid] using hfb.symm
    · left
      have hbc : b = c := by simpa [hid] using hfb
      exact hbc ▸ hb
  · rw [if_neg hany] at h
    rcases List.mem_append.mp h with h' | h'
    · exact Or.inl h'
    · exact Or.inr (List.mem_singleton.mp h')

/-- Putting a record whose key is already present keeps it a member. -/
lemma mem_idbPut_self {α : Type} {key : α → Nat} {v : α} {store : List α}
    (h : ∃ b ∈ store, key b = key v) : v ∈ idbPut key v store := by
  obtain ⟨b, hb, hk⟩ := h
  by_cases hany : store.any (fun c => key c == key v) = true
  · rw [idbPut, if_pos hany]
    exact List.mem_map.mpr ⟨b, hb, by simp [hk]⟩
  · rw [idbPut, if_neg hany]
    exact List.mem_append.mpr (Or.inr (List.mem_singleton.mpr rfl))

/-- Order of the "by-updated" index on lists: `updatedAt`, ties by the
primary key `id`. -/
def listUpdatedOrder (a b : ListWithCounts) : Prop :=
  a.updatedAt < b.updatedAt ∨ (a.updatedAt = b.updatedAt ∧ a.id ≤ b.id)

instance : DecidableRel listUpdatedOrder := fun a b =>
  inferInstanceAs
    (Decidable (a.updatedAt < b.updatedAt ∨ (a.updatedAt = b.updatedAt ∧ a.id ≤ b.id)))

/-- Primary-key order on items, the order IndexedDB yields for the records
matching one "by-list" index key. -/
def itemIdOrder (a b : Item) : Prop :=
  a.id ≤ b.id

instance : DecidableRel itemIdOrder := fun a b =>
  inferInstanceAs (Decidable (a.id ≤ b.id))

/-- getLists: `getAllFromIndex("lists", "by-updated")` then `reverse`
(most recent first). -/
def getLists (env : Env) : Except DBError (List ListWithCounts) := do
  let db ← getDB env
  return (List.insertionSort listUpdatedOrder db.lists).reverse

/-- getList: `db.get("lists", id)`, `undefined` when missing. -/
def getList (id : Nat) (env : Env) : Except DBError (Option ListWithCounts) := do
  let db ← getDB env
  return db.lists.find? (fun l => l.id == id)

/-- setLists (the replaceAll of the contract): clear the store, then put
every given list. -/
def setLists (lists : List ListWithCounts) (env : Env) : Except DBError MirrorDB := do
  let db ← getDB env
  return { db with lists := lists.foldl (fun acc l => idbPut (fun x => x.id) l acc) [] }

/-- addList: `db.put("lists", list)`. -/
def addList (list : ListWithCounts) (env : Env) : Except DBError MirrorDB := do
  let db ← getDB env
  return { db with lists := idbPut (fun x => x.id) list db.lists }

/-- Pure body of updateList once the database is open: read the record,
and if present put back the merged record; the `Partial<ListWithCounts>`
update object is modelled as the field-merge function it denotes. Missing
id is a no-op. -/
def updateListCore (id : Nat) (patch : ListWithCounts → ListWithCounts)
    (db : MirrorDB) : MirrorDB :=
  match db.lists.find? (fun l => l.id == id) with
  | none => db
  | some existing => { db with lists := idbPut (fun x => x.id) (patch existing) db.lists }

/-- updateList from offline-db.ts. -/
def updateList (id : Nat) (patch : ListWithCounts → ListWithCounts) (env : Env) :
    Except DBError MirrorDB := do
  let db ← getDB env
  return updateListCore id patch db

/-- deleteList: delete the list record, then delete each of its items
(looked up through the "by-list" index) in one transaction. -/
def deleteList (id : Nat) (env : Env) : Except DBError MirrorDB := do
  let db ← getDB env
  let db1 := { db with lists := db.lists.filter (fun l => l.id != id) }
  let items := db1.items.filter (fun i => i.listId == id)
  return { db1 with
    items := items.foldl (fun acc i => acc.filter (fun b => b.id != i.id)) db1.items }

/-- The records `getAllFromIndex("items", "by-list", listId)` yields: the
items of that list, in primary-key order. -/
def getItemsOfList (listId : Nat) (items : List Item) : List Item :=
  List.insertionSort itemIdOrder (items.filter (fun i => i.listId == listId))

/-- getItems from offline-db.ts. -/
def getItems (listId : Nat) (env : Env) : Except DBError (List Item) := do
  let db ← getDB env
  return getItemsOfList listId db.items

/-- getItem: `db.get("items", id)`. -/
def getItem (id : Nat) (env : Env) : Except DBError (Option Item) := do
  let db ← getDB env
  return db.items.find? (fun i => i.id == id)

/-- setItems: delete the existing items of the list, then put the new ones. -/
def setItems (listId : Nat) (items : List Item) (env : Env) :
    Except DBError MirrorDB := do
  let db ← getDB env
  let existing := db.items.filter (fun i => i.listId == listId)
  let cleared := existing.foldl (fun acc i => acc.filter (fun b => b.id != i.id)) db.items
  return { db with items := items.foldl (fun acc i => idbPut (fun x => x.id) i acc) cleared }

/-- addItem: `db.put("items", item)`. -/
def addItem (item : Item) (env : Env) : Except DBError MirrorDB := do
  let db ← getDB env
  return { db with items := idbPut (fun x => x.id) item db.items }

/-- Pure body of updateItem once the database is open: like updateListCore,
on the items store. -/
def updateItemCore (id : Nat) (patch : Item → Item) (db : MirrorDB) : MirrorDB :=
  match db.items.find? (fun i => i.id == id) with
  | none => db
  | some existing => { db with items := idbPut (fun x => x.id) (patch existing) db.items }

/-- updateItem from offline-db.ts. -/
def updateItem (id : Nat) (patch : Item → Item) (env : Env) :
    Except DBError MirrorDB := do
  let db ← getDB env
  return updateItemCore id patch db

/-- deleteItem: `db.delete("items", id)`. -/
def deleteItem (id : Nat) (env : Env) : Except DBError MirrorDB := do
  let db ← getDB env
  return { db with items := db.items.filter (fun i => i.id != id) }

/-- The rewritten list record of updateListCounts: the three aggregates
recomputed from the items `getAllFromIndex("items", "by-list", listId)`
returned, with updatedAt stamped by Date.now() (the `now` parameter),
following the source: `totalItems = items.length`,
`checkedItems = items.filter(i => i.checked).length`,
`totalPrice = items.reduce((sum, i) => sum + (i.price || 0) * i.quantity, 0)`. -/
def recomputedList (listId now : Nat) (db : MirrorDB) (list : ListWithCounts) :
    ListWithCounts :=
  { list with
    totalItems := (getItemsOfList listId db.items).length,
    checkedItems := ((getItemsOfList listId db.items).filter (fun i => i.checked)).length,
    totalPrice := (getItemsOfList listId db.items).foldl
      (fun sum i => sum + (i.price.getD 0) * i.quantity) 0,
    updatedAt := now }

/-- Pure body of updateListCounts once the database is open: scan the
mirror's items of the list and rewrite the stored list's aggregate fields.
Missing list is a no-op. -/
def updateListCountsCore (listId now : Nat) (db : MirrorDB) : MirrorDB :=
  match db.lists.find? (fun l => l.id == listId) with
  | none => db
  | some list =>
      { db with lists := idbPut (fun x => x.id) (recomputedList listId now db list) db.lists }

/-- updateListCounts from offline-db.ts (the recomputeListAggregates of the
contract). -/
def updateListCounts (listId : Nat) (now : Nat) (env : Env) :
    Except DBError MirrorDB := do
  let db ← getDB env
  return updateListCountsCore listId now db

/-- An empty mirror database. -/
def emptyDB : MirrorDB :=
  { lists := [], items := [] }

/-- The environment of a browsing context in which `openDB` rejects. -/
def unavailableEnv : Env :=
  { indexedDBAvailable := false, db := emptyDB }

/-- C7 counterexample: with the underlying database unavailable, the
mirror-store read getLists rejects with the open error instead of
returning an empty result — offline-db.ts has no catch and no
degrade-to-empty path, refuting the claim at this concrete input. -/
theorem mirror_read_rejects_when_unavailable :
    getLists unavailableEnv = Except.error DBError.openFailed
    ∧ getLists unavailableEnv ≠ Except.ok [] :=
  ⟨rfl, fun h => Except.noConfusion h⟩

/-- C7 (amended): every Local Mirror Store operation returns without
throwing whenever the underlying database opens; when the database is
unavailable, every operation — reads included — rejects with the open
error rather than degrading to an empty result. -/
theorem mirror_store_availability (env : Env) :
    (env.indexedDBAvailable = true →
      (∃ v, getLists env = Except.ok v)
      ∧ (∀ id, ∃ v, getList id env = Except.ok v)
      ∧ (∀ ls, ∃ v, setLists ls env = Except.ok v)
      ∧ (∀ l, ∃ v, addList l env = Except.ok v)
      ∧ (∀ id patch, ∃ v, updateList id patch env = Except.ok v)
      ∧ (∀ id, ∃ v, deleteList id env = Except.ok v)
      ∧ (∀ lid, ∃ v, getItems lid env = Except.ok v)
      ∧ (∀ id, ∃ v, getItem id env = Except.ok v)
      ∧ (∀ lid its, ∃ v, setItems lid its env = Except.ok v)
      ∧ (∀ it, ∃ v, addItem it env = Except.ok v)
      ∧ (∀ id patch, ∃ v, updateItem id patch env = Except.ok v)
      ∧ (∀ id, ∃ v, deleteItem id env = Except.ok v)
      ∧ (∀ lid now, ∃ v, updateListCounts lid now env = Except.ok v))
    ∧ (env.indexedDBAvailable = false →
      getLists env = Except.error DBError.openFailed
      ∧ (∀ id, getList id env = Except.error DBError.openFailed)
      ∧ (∀ ls, setLists ls env = Except.error DBError.openFailed)
      ∧ (∀ l, addList l env = Except.error DBError.openFailed)
      ∧ (∀ id patch, updateList id patch env = Except.error DBError.openFailed)
      ∧ (∀ id, deleteList id env = Except.error DBError.openFailed)
      ∧ (∀ lid, getItems lid env = Except.error DBError.openFailed)
      ∧ (∀ id, getItem id env = Except.error DBError.openFailed)
      ∧ (∀ lid its, setItems lid its env = Except.error DBError.openFailed)
      ∧ (∀ it, addItem it env = Except.error DBError.openFailed)
      ∧ (∀ id patch, updateItem id patch env = Except.error DBError.openFailed)
      ∧ (∀ id, deleteItem id env = Except.error DBError.openFailed)
      ∧ (∀ lid now, updateListCounts lid now env = Except.error DBError.openFailed)) := by
  constructor
  · intro h
    have hdb : getDB env = Except.ok env.db := by simp [getDB, h]
    refine ⟨?_, ?_, ?_, ?_, ?_, ?_, ?_, ?_, ?_, ?_, ?_, ?_, ?_⟩
    · unfold getLists
      rw [hdb]
      exact ⟨_, rfl⟩
    · intro id
      unfold getList
      rw [hdb]
      exact ⟨_, rfl⟩
    · intro ls
      unfold setLists
      rw [hdb]
      exact ⟨_, rfl⟩
    · intro l
      unfold addList
      rw [hdb]
      exact ⟨_, rfl⟩
    · intro id patch
      unfold updateList
      rw [hdb]
      exact ⟨_, rfl⟩
    · intro id
      unfold deleteList
      rw [hdb]
      exact ⟨_, rfl⟩
    · intro lid
      unfold getItems
      rw [hdb]
      exact ⟨_, rfl⟩
    · intro id
      unfold getItem
      rw [hdb]
      exact ⟨_, rfl⟩
    · intro lid its
      unfold setItems
      rw [hdb]
      exact ⟨_, rfl⟩
    · intro it
      unfold addItem
      rw [hdb]
      exact ⟨_, rfl⟩
    · intro id patch
      unfold updateItem
      rw [hdb]
      exact ⟨_, rfl⟩
    · intro id
      unfold deleteItem
      rw [hdb]
      exact ⟨_, rfl⟩
    · intro lid now
      unfold updateListCounts
      rw [hdb]
      exact ⟨_, rfl⟩
  · intro h
    have hdb : getDB env = Except.error DBError.openFailed := by simp [getDB, h]
    refine ⟨?_, ?_, ?_, ?_, ?_, ?_, ?_, ?_, ?_, ?_, ?_, ?_, ?_⟩
    · unfold getLists
      rw [hdb]
      rfl
    · intro id
      unfold getList
      rw [hdb]
      rfl
    · intro ls
      unfold setLists
      rw [hdb]
      rfl
    · intro l
      unfold addList
      rw [hdb]
      rfl
    · intro id patch
      unfold updateList
      rw [hdb]
      rfl
    · intro id
      unfold deleteList
      rw [hdb]
      rfl
    · intro lid
      unfold getItems
      rw [hdb]
      rfl
    · intro id
      unfold getItem
      rw [hdb]
      rfl
    · intro lid its
      unfold setItems
      rw [hdb]
      rfl
    · intro it
      unfold addItem
      rw [hdb]
      rfl
    · intro id patch
      unfold updateItem
      rw [hdb]
      rfl
    · intro id
      unfold deleteItem
      rw [hdb]
      rfl
    · intro lid now
      unfold updateListCounts
      rw [hdb]
      rfl

/-- An available environment over the empty database, for the witness. -/
def availableEmptyEnv : Env :=
  { indexedDBAvailable := true, db := emptyDB }

/-- Closed witness for the availability theorem: both halves at concrete
environments, extracting one read and one write from each. -/
theorem mirror_store_availability_witness :
    (∃ v, getLists availableEmptyEnv = Except.ok v)
    ∧ (∀ lid now, ∃ v, updateListCounts lid now availableEmptyEnv = Except.ok v)
    ∧ getLists unavailableEnv = Except.error DBError.openFailed
    ∧ (∀ id, deleteItem id unavailableEnv = Except.error DBError.openFailed) :=
  ⟨((mirror_store_availability availableEmptyEnv).1 rfl).1,
   ((mirror_store_availability availableEmptyEnv).1 rfl).2.2.2.2.2.2.2.2.2.2.2.2,
   ((mirror_store_availability unavailableEnv).2 rfl).1,
   ((mirror_store_availability unavailableEnv).2 rfl).2.2.2.2.2.2.2.2.2.2.2.1⟩

/-- When the put key is already present, every record of the result with
that key is the record just put (the old record was overwritten). -/
lemma mem_idbPut_key_eq {α : Type} {key : α → Nat} {v c : α} {store : List α}
    (hc : c ∈ idbPut key v store) (hk : key c = key v)
    (hany : store.any (fun b => key b == key v) = true) : c = v := by
  rw [idbPut, if_pos hany] at hc
  obtain ⟨b, hb, hfb⟩ := List.mem_map.mp hc
  by_cases hid : key b == key v
  · simpa [hid] using hfb.symm
  · exfalso
    have hbc : b = c := by simpa [hid] using hfb
    subst hbc
    exact hid (by simp [hk])

/-- The reduce of the source's totalPrice, as init plus a mapped sum. -/
lemma foldl_add_eq_add_sum {α : Type} (f : α → Rat) :
    ∀ (l : List α) (init : Rat),
      l.foldl (fun sum i => sum + f i) init = init + (l.map f).sum := by
  intro l
  induction l with
  | nil =>
    intro init
    simp
  | cons a t ih =>
    intro init
    simp [ih, add_assoc]

/-- C8: for a list id present in the mirror, updateListCounts leaves the
items untouched and rewrites the stored list so that its aggregates equal
the values derived from the mirror's items with that listId: totalItems is
their number, checkedItems the number of checked ones, totalPrice the sum
of (price, 0 when absent) times quantity. -/
theorem updateListCounts_recomputes_aggregates (env : Env) (listId now : Nat)
    (havail : env.indexedDBAvailable = true)
    (hpresent : ∃ l, env.db.lists.find? (fun x => x.id == listId) = some l) :
    ∃ db', updateListCounts listId now env = Except.ok db'
      ∧ db'.items = env.db.items
      ∧ (∃ l', l' ∈ db'.lists ∧ l'.id = listId)
      ∧ ∀ l' ∈ db'.lists, l'.id = listId →
          l'.totalItems = (env.db.items.filter (fun i => i.listId == listId)).length
          ∧ l'.checkedItems =
              ((env.db.items.filter (fun i => i.listId == listId)).filter
                (fun i => i.checked)).length
          ∧ l'.totalPrice =
              ((env.db.items.filter (fun i => i.listId == listId)).map
                (fun i => (i.price.getD 0) * i.quantity)).sum := by
  obtain ⟨list, hfind⟩ := hpresent
  have hdb : getDB env = Except.ok env.db := by simp [getDB, havail]
  have hlistmem : list ∈ env.db.lists := List.mem_of_find?_eq_some hfind
  have hlid : list.id = listId := by
    have := List.find?_some hfind
    simpa using this
  have hperm : List.Perm (getItemsOfList listId env.db.items)
      (env.db.items.filter (fun i => i.listId == listId)) :=
    List.perm_insertionSort _ _
  have hcore : updateListCountsCore listId now env.db =
      { env.db with lists := idbPut (fun x => x.id) (recomputedList listId now env.db list) env.db.lists } := by
    unfold updateListCountsCore
    rw [hfind]
  have heq : updateListCounts listId now env =
      Except.ok (updateListCountsCore listId now env.db) := by
    unfold updateListCounts
    rw [hdb]
    rfl
  have hkey : (recomputedList listId now env.db list).id = listId := by
    simp [recomputedList, hlid]
  have hany : env.db.lists.any
      (fun b => b.id == (recomputedList listId now env.db list).id) = true := by
    rw [List.any_eq_true]
    exact ⟨list, hlistmem, by simp [hkey, hlid]⟩
  have hTotal : (recomputedList listId now env.db list).totalItems =
      (env.db.items.filter (fun i => i.listId == listId)).length := by
    simp [recomputedList]
    exact hperm.length_eq
  have hChecked : (recomputedList listId now env.db list).checkedItems =
      ((env.db.items.filter (fun i => i.listId == listId)).filter
        (fun i => i.checked)).length := by
    simp only [recomputedList]
    exact (hperm.filter (fun i => i.checked)).length_eq
  have hPrice : (recomputedList listId now env.db list).totalPrice =
      ((env.db.items.filter (fun i => i.listId == listId)).map
        (fun i => (i.price.getD 0) * i.quantity)).sum := by
    simp only [recomputedList]
    rw [foldl_add_eq_add_sum, zero_add]
    exact (hperm.map (fun i => (i.price.getD 0) * i.quantity)).sum_eq
  refine ⟨updateListCountsCore listId now env.db, heq, by rw [hcore], ?_, ?_⟩
  · refine ⟨recomputedList listId now env.db list, ?_, hkey⟩
    rw [hcore]
    exact mem_idbPut_self ⟨list, hlistmem, by simp [hkey, hlid]⟩
  · intro l' hl' hid'
    rw [hcore] at hl'
    have hl'eq : l' = recomputedList listId now env.db list :=
      mem_idbPut_key_eq hl' (by rw [hid', hkey]) hany
    subst hl'eq
    exact ⟨hTotal, hChecked, hPrice⟩

/-- A concrete mirrored list for the aggregates witness. -/
def sampleListRec : ListWithCounts :=
  { id := 5, name := "Weekly", version := 1, createdAt := 0, updatedAt := 0,
    totalItems := 0, checkedItems := 0, totalPrice := 0 }

/-- A checked item of list 5 (price 3, quantity 2). -/
def sampleItem1 : Item :=
  { id := 1, listId := 5, name := "Milk", quantity := 2, unit := none,
    categoryId := 1, checked := true, price := some 3, store := none,
    sortOrder := 0, version := 1 }

/-- An item of a different list, to show it is ignored. -/
def sampleItem2 : Item :=
  { id := 2, listId := 6, name := "Eggs", quantity := 1, unit := none,
    categoryId := 1, checked := false, price := none, store := none,
    sortOrder := 0, version := 1 }

/-- A concrete available environment with one list and two items. -/
def sampleEnv : Env :=
  { indexedDBAvailable := true,
    db := { lists := [sampleListRec], items := [sampleItem1, sampleItem2] } }

/-- Closed witness for the aggregates theorem at the concrete environment. -/
theorem updateListCounts_recomputes_aggregates_witness :
    sampleEnv.indexedDBAvailable = true
    ∧ (∃ l, sampleEnv.db.lists.find? (fun x => x.id == 5) = some l)
    ∧ ∃ db', updateListCounts 5 99 sampleEnv = Except.ok db'
      ∧ db'.items = sampleEnv.db.items
      ∧ (∃ l', l' ∈ db'.lists ∧ l'.id = 5)
      ∧ ∀ l' ∈ db'.lists, l'.id = 5 →
          l'.totalItems = (sampleEnv.db.items.filter (fun i => i.listId == 5)).length
          ∧ l'.checkedItems =
              ((sampleEnv.db.items.filter (fun i => i.listId == 5)).filter
                (fun i => i.checked)).length
          ∧ l'.totalPrice =
              ((sampleEnv.db.items.filter (fun i => i.listId == 5)).map
                (fun i => (i.price.getD 0) * i.quantity)).sum :=
  ⟨rfl, ⟨sampleListRec, rfl⟩,
   updateListCounts_recomputes_aggregates sampleEnv 5 99 rfl ⟨sampleListRec, rfl⟩⟩

/-- JS `x || d` on an optional number: `undefined`/`null` and `0` are
falsy and give the default. -/
def jsOr (v : Option Rat) (d : Rat) : Rat :=
  match v with
  | some x => if x = 0 then d else x
  | none => d

/-- onMutate of useLists.createMutation: read the snapshot
(`previousLists`), prepend the optimistic list to the cached collection
(empty when the cache is missing), and return the snapshot as mutation
context. Result: (new cache, context). -/
def createListOnMutate (optimistic : ListWithCounts)
    (cache : Option (List ListWithCounts)) :
    Option (List ListWithCounts) × Option (List ListWithCounts) :=
  (some (optimistic :: cache.getD []), cache)

/-- onError of useLists.createMutation: `if (context?.previousLists)` —
restore the snapshot when it is truthy (an array, even empty, is truthy;
`undefined` is not), otherwise leave the cache as it is. -/
def createListOnError (previousLists : Option (List ListWithCounts))
    (cache : Option (List ListWithCounts)) : Option (List ListWithCounts) :=
  match previousLists with
  | some prev => some prev
  | none => cache

/-- A create-list mutation whose direct network call fails: onMutate, then
onError with the recorded context. -/
def createListFailure (optimistic : ListWithCounts)
    (cache : Option (List ListWithCounts)) : Option (List ListWithCounts) :=
  let r := createListOnMutate optimistic cache
  createListOnError r.2 r.1

/-- The query cache slice touched by useItems.createMutation: the
["lists", listId, "items"] entry and the ["lists"] entry. -/
structure ItemsQueryCache where
  items : Option (List Item)
  lists : Option (List ListWithCounts)
deriving DecidableEq, Repr

/-- The optimistic list-counts bump of useItems.createMutation:
`totalItems + 1`, `totalPrice + (data.price || 0) * (data.quantity || 1)`,
`updatedAt = Date.now()`. -/
def bumpListForCreate (price quantity : Option Rat) (now : Nat)
    (list : ListWithCounts) : ListWithCounts :=
  { list with
    totalItems := list.totalItems + 1,
    totalPrice := list.totalPrice + jsOr price 0 * jsOr quantity 1,
    updatedAt := now }

/-- onMutate of useItems.createMutation: snapshot both entries, append the
optimistic item to the items entry, and — only when the ["lists"] entry is
present (`if (lists)`) — bump the affected list's counts. Result:
(new cache, context `{ previousItems, lists }`). -/
def createItemOnMutate (listId : Nat) (optimistic : Item)
    (price quantity : Option Rat) (now : Nat) (cache : ItemsQueryCache) :
    ItemsQueryCache × ItemsQueryCache :=
  let newItems := some (cache.items.getD [] ++ [optimistic])
  let newLists :=
    match cache.lists with
    | some lists =>
        some (lists.map (fun list =>
          if list.id == listId then bumpListForCreate price quantity now list else list))
    | none => none
  ({ items := newItems, lists := newLists },
   { items := cache.items, lists := cache.lists })

/-- onError of useItems.createMutation: restore each snapshotted entry that
is truthy, leave the rest of the cache as it is. -/
def createItemOnError (context cache : ItemsQueryCache) : ItemsQueryCache :=
  let c1 :=
    match context.items with
    | some prev => { cache with items := some prev }
    | none => cache
  match context.lists with
  | some prev => { c1 with lists := some prev }
  | none => c1

/-- A create-item mutation whose direct network call fails: onMutate, then
onError with the recorded context. -/
def createItemFailure (listId : Nat) (optimistic : Item)
    (price quantity : Option Rat) (now : Nat) (cache : ItemsQueryCache) :
    ItemsQueryCache :=
  let r := createItemOnMutate listId optimistic price quantity now cache
  createItemOnError r.2 r.1

/-- C9 counterexample: when the mutation starts with no cached collection
(snapshot `undefined`), the failed direct call does not restore the
pre-mutation cache — the `if (context?.previousLists)` guard skips the
rollback and the optimistic element remains, refuting exact restoration as
stated. -/
theorem optimistic_rollback_skipped_on_empty_cache :
    createListFailure sampleListRec none = some [sampleListRec]
    ∧ createListFailure sampleListRec none ≠ none :=
  ⟨rfl, fun h => Option.noConfusion h⟩

/-- C9 (amended): whenever the mutation starts with a collection present in
the cache (the snapshot is defined — an empty collection included), a
failing direct call restores the cache exactly to the snapshot, with no
element lost or left partially modified; this holds for the single-key
list mutation and for the two-key item mutation (whose ["lists"] entry is
restored or left untouched according to its own snapshot). When no
collection was cached, the rollback is skipped and the optimistic element
remains. -/
theorem optimistic_rollback_restores_present_snapshot :
    (∀ (optimistic : ListWithCounts) (ls : List ListWithCounts),
      createListFailure optimistic (some ls) = some ls)
    ∧ (∀ (listId : Nat) (optimistic : Item) (price quantity : Option Rat)
        (now : Nat) (its : List Item) (listsCache : Option (List ListWithCounts)),
      createItemFailure listId optimistic price quantity now
          { items := some its, lists := listsCache } =
        { items := some its, lists := listsCache }) := by
  constructor
  · intro optimistic ls
    rfl
  · intro listId optimistic price quantity now its listsCache
    cases listsCache <;> rfl

end Groceries
